import Mathlib

/-!
Verification development for the AirLab MQTT data collector
(`airlab_collector.py`). The Python source is shallowly embedded:

* Python `str` is Lean `String` (a list of characters); `str.lower`,
  `str.strip`, `str.split`, slicing and affix tests are re-implemented
  over `String.data` below, restricted to the ASCII behaviour the
  collector relies on (Unicode-only whitespace and locale-specific
  case mappings are out of scope).
* Python `float` values are modelled as exact rationals `ℚ`; the
  non-finite floats `inf`/`nan` (and binary rounding) are not
  representable, so the string coercions below treat `"inf"`/`"nan"`
  style inputs as failed coercions.  All rational values are built
  with `mkRat`/`qadd`/`qsub` (proved equal to `+`/`-` below) so that
  every definition evaluates by kernel reduction.
* Exceptions are modelled with `Except`/`Option`; `sqlite3` and the
  MQTT client are modelled by their observable outcomes.
-/

/-! ### Python string primitives -/

/-- Python `str.strip()` whitespace test, restricted to the ASCII
whitespace characters `' '`, `\t`, `\n`, `\r`, `\v`, `\f`. -/
def pyIsSpace (c : Char) : Bool :=
  decide (c.toNat = 32 ∨ c.toNat = 9 ∨ c.toNat = 10 ∨ c.toNat = 13 ∨
    c.toNat = 11 ∨ c.toNat = 12)

/-- Drop characters satisfying `p` from both ends of a list. -/
def stripWhile (p : Char → Bool) (l : List Char) : List Char :=
  ((l.dropWhile p).reverse.dropWhile p).reverse

/-- Python `s.strip()` (no argument: strip whitespace from both ends). -/
def pyStrip (s : String) : String :=
  ⟨stripWhile pyIsSpace s.data⟩

/-- Python `s.lower()` (ASCII case mapping). -/
def pyLower (s : String) : String :=
  ⟨s.data.map Char.toLower⟩

/-- Python `s.strip("/")` as used on the relative topic path. -/
def stripSlash (s : String) : String :=
  ⟨stripWhile (fun c => c == '/') s.data⟩

/-- Python `s.split("/")` on a list of characters:
`"" ↦ [""]`, `"a//b" ↦ ["a", "", "b"]`. -/
def splitSlashChars : List Char → List (List Char)
  | [] => [[]]
  | c :: rest =>
    let r := splitSlashChars rest
    if c == '/' then [] :: r
    else
      match r with
      | [] => [[c]]
      | h :: t => (c :: h) :: t

/-- Python `s.split("/")`. -/
def pySplitSlash (s : String) : List String :=
  (splitSlashChars s.data).map (fun l => ⟨l⟩)

/-- Python `s.startswith(t)`. -/
def pyStartsWith (s t : String) : Bool :=
  t.data.isPrefixOf s.data

/-- Python `s.endswith(t)`. -/
def pyEndsWith (s t : String) : Bool :=
  t.data.reverse.isPrefixOf s.data.reverse

/-- Python `s[n:]` (drop the first `n` characters). -/
def strDropChars (s : String) (n : Nat) : String :=
  ⟨s.data.drop n⟩

/-! ### Reduction-friendly rational arithmetic

`Rat.add`/`Rat.sub` do not evaluate inside the kernel, so the model
uses `qadd`/`qsub` (proved equal to `+`/`-` in the theorem section)
wherever the source adds or subtracts floats. -/

/-- Rational addition via `mkRat` (kernel-evaluable). -/
def qadd (a b : ℚ) : ℚ :=
  mkRat (a.num * (b.den : Int) + b.num * (a.den : Int)) (a.den * b.den)

/-- Rational subtraction via `mkRat` (kernel-evaluable). -/
def qsub (a b : ℚ) : ℚ := qadd a (-b)

/-! ### Constant tables (`FIELD_ALIASES`, `VALID_RANGES`) -/

/-- `FIELD_ALIASES` from `airlab_collector.py` lines 17-34, in source
order.  Keys are unique, so association-list lookup models `dict.get`. -/
def FIELD_ALIASES : List (String × String) :=
  [("co2", "co2_ppm"),
   ("carbon_dioxide", "co2_ppm"),
   ("co2_ppm", "co2_ppm"),
   ("temperature", "temperature_c"),
   ("temp", "temperature_c"),
   ("temperature_c", "temperature_c"),
   ("humidity", "humidity_percent"),
   ("rh", "humidity_percent"),
   ("relative_humidity", "humidity_percent"),
   ("humidity_percent", "humidity_percent"),
   ("pressure", "pressure_hpa"),
   ("pressure_hpa", "pressure_hpa"),
   ("voc", "voc_index"),
   ("voc_index", "voc_index"),
   ("nox", "nox_index"),
   ("nox_index", "nox_index")]

/-- Python `d.get(k)` on a string-keyed dict modelled as an
association list with unique keys. -/
def dictGet {α : Type} (l : List (String × α)) (k : String) : Option α :=
  (l.find? (fun kv => kv.1 == k)).map (fun kv => kv.2)

/-- `canonicalize` (line 97): `FIELD_ALIASES.get(field.lower().strip())`. -/
def canonicalize (field : String) : Option String :=
  dictGet FIELD_ALIASES (pyStrip (pyLower field))

/-- `VALID_RANGES` (lines 36-43): inclusive plausibility bounds. -/
def VALID_RANGES : List (String × (ℚ × ℚ)) :=
  [("co2_ppm", (150, 10000)),
   ("temperature_c", (-40, 85)),
   ("humidity_percent", (0, 100)),
   ("pressure_hpa", (300, 1200)),
   ("voc_index", (0, 500)),
   ("nox_index", (0, 500))]

/-- The six canonical metric identifiers. -/
def canonicalMetricNames : List String :=
  ["co2_ppm", "temperature_c", "humidity_percent", "pressure_hpa",
   "voc_index", "nox_index"]

/-! ### Readings (Python dicts of canonical metric to float) -/

/-- A (partial) reading: insertion-ordered dict from canonical metric
name to value, modelled as an association list with unique keys. -/
abbrev Reading := List (String × ℚ)

/-- Python `d[k] = v`: overwrite in place if the key is present,
otherwise append at the end (CPython dict insertion order). -/
def dictSet (r : Reading) (k : String) (v : ℚ) : Reading :=
  if r.any (fun kv => kv.1 == k) then
    r.map (fun kv => if kv.1 == k then (k, v) else kv)
  else
    r ++ [(k, v)]

/-- Python `d.update(p)`: set every entry of `p` in order. -/
def dictUpdate (r p : Reading) : Reading :=
  p.foldl (fun acc kv => dictSet acc kv.1 kv.2) r

/-- Python `d.get(k)` on a reading. -/
def dictFind (r : Reading) (k : String) : Option ℚ :=
  (r.find? (fun kv => kv.1 == k)).map (fun kv => kv.2)

/-- `validate_reading` (lines 139-151): scan the entries in order and
return `False` at the first entry whose key has a validity range and
whose value lies outside the inclusive bounds. -/
def validate_reading : Reading → Bool
  | [] => true
  | kv :: rest =>
    match dictGet VALID_RANGES kv.1 with
    | some bounds =>
      if bounds.1 ≤ kv.2 ∧ kv.2 ≤ bounds.2 then validate_reading rest
      else false
    | none => validate_reading rest

/-! ### Float coercion (`try_float`) -/

/-- Accumulate decimal digits: returns value, digit count, rest. -/
def parseDigits : Nat → Nat → List Char → Nat × Nat × List Char
  | acc, cnt, [] => (acc, cnt, [])
  | acc, cnt, c :: rest =>
    if c.isDigit then parseDigits (acc * 10 + (c.toNat - 48)) (cnt + 1) rest
    else (acc, cnt, c :: rest)

/-- Exact rational value of a decimal literal with integer part `ip`,
fractional part `fp` of `fc` digits, and signed exponent. -/
def ratOfParts (neg : Bool) (ip fp fc : Nat) (eneg : Bool) (ev : Nat) : ℚ :=
  let m : Nat := ip * 10 ^ fc + fp
  let q : ℚ :=
    if eneg then mkRat (m : Int) (10 ^ fc * 10 ^ ev)
    else mkRat ((m * 10 ^ ev : Nat) : Int) (10 ^ fc)
  if neg then -q else q

/-- Exponent part of `float(s)`: optional sign, at least one digit,
then end of input. -/
def pyFloatExp (neg : Bool) (ip fp fc : Nat) (l : List Char) : Option ℚ :=
  let esRest : Bool × List Char :=
    match l with
    | '+' :: r => (false, r)
    | '-' :: r => (true, r)
    | _ => (false, l)
  match parseDigits 0 0 esRest.2 with
  | (ev, ec, l3) =>
    if ec == 0 then none
    else match l3 with
      | [] => some (ratOfParts neg ip fp fc esRest.1 ev)
      | _ => none

/-- Python `float(s)` on a string: optional surrounding whitespace and
sign, then `digits[.digits][(e|E)[sign]digits]` with at least one
mantissa digit.  Deviations (documented in the header): `inf`/`nan`
spellings and digit-group underscores are treated as coercion
failures. -/
def pyFloatChars (l0 : List Char) : Option ℚ :=
  let l := stripWhile pyIsSpace l0
  let sgnRest : Bool × List Char :=
    match l with
    | '+' :: r => (false, r)
    | '-' :: r => (true, r)
    | _ => (false, l)
  match parseDigits 0 0 sgnRest.2 with
  | (ip, ic, l1) =>
    let fracRest : Nat × Nat × List Char :=
      match l1 with
      | '.' :: r => parseDigits 0 0 r
      | _ => (0, 0, l1)
    match fracRest with
    | (fp, fc, l2) =>
      if ic + fc == 0 then none
      else
        match l2 with
        | [] => some (ratOfParts sgnRest.1 ip fp fc false 0)
        | 'e' :: r => pyFloatExp sgnRest.1 ip fp fc r
        | 'E' :: r => pyFloatExp sgnRest.1 ip fp fc r
        | _ => none

/-- `try_float` (lines 101-105) applied to a string payload. -/
def pyFloat (s : String) : Option ℚ := pyFloatChars s.data

/-! ### JSON values and `json.loads` -/

/-- Parsed JSON values (`json.loads` results).  Numbers are stored as
exact rationals. -/
inductive Json where
  | null
  | boolean (b : Bool)
  | num (v : ℚ)
  | str (s : String)
  | arr (elems : List Json)
  | obj (members : List (String × Json))

/-- JSON structural whitespace. -/
def jsonWs (c : Char) : Bool :=
  c == ' ' || c == '\t' || c == '\n' || c == '\r'

/-- Skip JSON whitespace. -/
def jsSkipWs (l : List Char) : List Char := l.dropWhile jsonWs

/-- Hexadecimal digit value. -/
def hexVal (c : Char) : Option Nat :=
  if c.isDigit then some (c.toNat - 48)
  else if 97 ≤ c.toNat ∧ c.toNat ≤ 102 then some (c.toNat - 87)
  else if 65 ≤ c.toNat ∧ c.toNat ≤ 70 then some (c.toNat - 55)
  else none

/-- Single-character JSON string escapes. -/
def escChar (e : Char) : Option Char :=
  if e == '\"' then some '\"'
  else if e == '\\' then some '\\'
  else if e == '/' then some '/'
  else if e == 'n' then some '\n'
  else if e == 't' then some '\t'
  else if e == 'r' then some '\r'
  else if e == 'b' then some (Char.ofNat 8)
  else if e == 'f' then some (Char.ofNat 12)
  else none

/-- JSON string body after the opening quote: returns the decoded
characters and the input after the closing quote.  Unescaped control
characters and unknown escapes are rejected, as in Python's strict
decoder (surrogate-pair `\u` handling is simplified to a single
code-unit lookup). -/
def parseStrChars : List Char → Option (List Char × List Char)
  | [] => none
  | '\"' :: rest => some ([], rest)
  | '\\' :: 'u' :: h1 :: h2 :: h3 :: h4 :: rest =>
    match hexVal h1, hexVal h2, hexVal h3, hexVal h4 with
    | some a, some b, some c, some d =>
      (match parseStrChars rest with
       | some (s, r) =>
         some (Char.ofNat (((a * 16 + b) * 16 + c) * 16 + d) :: s, r)
       | none => none)
    | _, _, _, _ => none
  | '\\' :: e :: rest =>
    (match escChar e with
     | some c =>
       (match parseStrChars rest with
        | some (s, r) => some (c :: s, r)
        | none => none)
     | none => none)
  | c :: rest =>
    if c.toNat < 32 then none
    else
      match parseStrChars rest with
      | some (s, r) => some (c :: s, r)
      | none => none

/-- Match a literal keyword. -/
def matchLit (lit l : List Char) : Option (List Char) :=
  if lit.isPrefixOf l then some (l.drop lit.length) else none

/-- JSON number fraction part: `.digits` (at least one) or nothing. -/
def parseJsonFracPart (l : List Char) : Option (Nat × Nat × List Char) :=
  match l with
  | '.' :: r =>
    (match parseDigits 0 0 r with
     | (fp, fc, l3) => if fc == 0 then none else some (fp, fc, l3))
  | _ => some (0, 0, l)

/-- Signed digit string of a JSON exponent. -/
def parseJsonExpDigits (l : List Char) : Option (Bool × Nat × List Char) :=
  let esRest : Bool × List Char :=
    match l with
    | '+' :: r => (false, r)
    | '-' :: r => (true, r)
    | _ => (false, l)
  match parseDigits 0 0 esRest.2 with
  | (ev, ec, l3) => if ec == 0 then none else some (esRest.1, ev, l3)

/-- JSON number exponent part: `(e|E)[sign]digits` or nothing. -/
def parseJsonExpPart (l : List Char) : Option (Bool × Nat × List Char) :=
  match l with
  | 'e' :: r => parseJsonExpDigits r
  | 'E' :: r => parseJsonExpDigits r
  | _ => some (false, 0, l)

/-- JSON number: `-?(0|[1-9][0-9]*)(.digits)?((e|E)[sign]digits)?`
(no leading `+`, no leading zeros, no bare `.5`/`1.`). -/
def parseJsonNumber (l : List Char) : Option (ℚ × List Char) :=
  let negRest : Bool × List Char :=
    match l with
    | '-' :: r => (true, r)
    | _ => (false, l)
  match negRest.2 with
  | c :: _ =>
    if c.isDigit then
      match parseDigits 0 0 negRest.2 with
      | (ip, ic, l2) =>
        if 2 ≤ ic ∧ c == '0' then none
        else
          match parseJsonFracPart l2 with
          | some (fp, fc, l3) =>
            (match parseJsonExpPart l3 with
             | some (eneg, ev, l4) =>
               some (ratOfParts negRest.1 ip fp fc eneg ev, l4)
             | none => none)
          | none => none
    else none
  | [] => none

/-- The `dict` construction step Python's `json.loads` performs for
object members: assigning an existing key replaces its value in
place, otherwise the pair is appended (CPython insertion order). -/
def jsonObjSet (ms : List (String × Json)) (k : String) (v : Json) :
    List (String × Json) :=
  if ms.any (fun kv => kv.1 == k) then
    ms.map (fun kv => if kv.1 == k then (k, v) else kv)
  else ms ++ [(k, v)]

/-- `json.loads` returns objects as Python dicts, so duplicate keys
are collapsed before the caller ever sees them: the last value wins
and the key keeps its first position. -/
def jsonObjOfMembers (ms : List (String × Json)) : List (String × Json) :=
  ms.foldl (fun acc kv => jsonObjSet acc kv.1 kv.2) []

/-- Parser mode: a JSON value, the members of an object, or the
elements of an array. -/
inductive PKind where
  | val
  | members
  | elems

/-- Parser result for each mode. -/
inductive PRes where
  | v (j : Json)
  | ms (l : List (String × Json))
  | es (l : List Json)

/-- Recursive-descent JSON parser (fuel-bounded, single structural
recursion so that it evaluates by kernel reduction; the entry point
supplies more fuel than any input can consume).  `NaN`/`Infinity`
extensions accepted by Python are not modelled. -/
def parseJ : Nat → PKind → List Char → Option (PRes × List Char)
  | 0, _, _ => none
  | fuel + 1, .val, l =>
    (match jsSkipWs l with
     | [] => none
     | c :: rest =>
       if c == '\"' then
         match parseStrChars rest with
         | some (s, r) => some (.v (.str ⟨s⟩), r)
         | none => none
       else if c == '\x7b' then
         match jsSkipWs rest with
         | '\x7d' :: r => some (.v (.obj []), r)
         | l1 =>
           (match parseJ fuel .members l1 with
            | some (.ms ms, r) => some (.v (.obj (jsonObjOfMembers ms)), r)
            | _ => none)
       else if c == '[' then
         match jsSkipWs rest with
         | ']' :: r => some (.v (.arr []), r)
         | l1 =>
           (match parseJ fuel .elems l1 with
            | some (.es es, r) => some (.v (.arr es), r)
            | _ => none)
       else if c == 'n' then
         match matchLit ['u', 'l', 'l'] rest with
         | some r => some (.v .null, r)
         | none => none
       else if c == 't' then
         match matchLit ['r', 'u', 'e'] rest with
         | some r => some (.v (.boolean true), r)
         | none => none
       else if c == 'f' then
         match matchLit ['a', 'l', 's', 'e'] rest with
         | some r => some (.v (.boolean false), r)
         | none => none
       else
         match parseJsonNumber (c :: rest) with
         | some (q, r) => some (.v (.num q), r)
         | none => none)
  | fuel + 1, .members, l =>
    (match l with
     | '\"' :: r =>
       (match parseStrChars r with
        | some (k, r1) =>
          (match jsSkipWs r1 with
           | ':' :: r2 =>
             (match parseJ fuel .val r2 with
              | some (.v v, r3) =>
                (match jsSkipWs r3 with
                 | ',' :: r4 =>
                   (match parseJ fuel .members (jsSkipWs r4) with
                    | some (.ms ms, r5) => some (.ms ((⟨k⟩, v) :: ms), r5)
                    | _ => none)
                 | '\x7d' :: r4 => some (.ms [(⟨k⟩, v)], r4)
                 | _ => none)
              | _ => none)
           | _ => none)
        | none => none)
     | _ => none)
  | fuel + 1, .elems, l =>
    (match parseJ fuel .val l with
     | some (.v v, r) =>
       (match jsSkipWs r with
        | ',' :: r2 =>
          (match parseJ fuel .elems r2 with
           | some (.es es, r3) => some (.es (v :: es), r3)
           | _ => none)
        | ']' :: r2 => some (.es [v], r2)
        | _ => none)
     | _ => none)

/-- `json.loads` on a payload string: a single JSON value followed
only by whitespace, otherwise a decode error. -/
def json_loads (payload : String) : Except String Json :=
  match parseJ (2 * payload.data.length + 2) .val payload.data with
  | some (.v v, rest) =>
    if (jsSkipWs rest).isEmpty then .ok v else .error "Extra data"
  | _ => .error "Expecting value"

/-! ### Payload normalization -/

/-- `try_float` (lines 101-105) applied to a parsed JSON value:
numbers and booleans coerce (`float(True) = 1.0`), numeric strings
parse, `null`/arrays/objects raise `TypeError` which is caught,
yielding `None`. -/
def try_float_json : Json → Option ℚ
  | .num q => some q
  | .boolean b => some (if b then 1 else 0)
  | .str s => pyFloat s
  | _ => none

/-- Loop of `parse_json_payload` (lines 113-120): for each member in
order, canonicalize the key and coerce the value, writing accepted
entries into the reading dict `acc`. -/
def objToReadingAux (acc : Reading) : List (String × Json) → Reading
  | [] => acc
  | kv :: rest =>
    match canonicalize kv.1 with
    | some canon =>
      (match try_float_json kv.2 with
       | some v => objToReadingAux (dictSet acc canon v) rest
       | none => objToReadingAux acc rest)
    | none => objToReadingAux acc rest

/-- The reading built by `parse_json_payload` from a JSON object,
starting from the empty dict. -/
def objToReading (members : List (String × Json)) : Reading :=
  objToReadingAux [] members

/-- `parse_json_payload` (lines 108-120): `json.loads`, then an empty
reading unless the result is a dict, else the coerced entries.  A
decode error propagates (as an `Except.error`) to the caller. -/
def parse_json_payload (payload : String) : Except String Reading :=
  match json_loads payload with
  | .error e => .error e
  | .ok (.obj members) => .ok (objToReading members)
  | .ok _ => .ok []

/-- Loop of `parse_topic_value` (lines 130-136): scan segments from
last to first; on a segment that canonicalizes, return a single-entry
reading if the payload coerces, otherwise keep scanning. -/
def topicScan : List String → String → Reading
  | [], _ => []
  | part :: rest, payload =>
    match canonicalize part with
    | some canon =>
      (match pyFloat payload with
       | some v => [(canon, v)]
       | none => topicScan rest payload)
    | none => topicScan rest payload

/-- `parse_topic_value` (lines 123-136). -/
def parse_topic_value (topic payload base_topic : String) : Reading :=
  let relative :=
    if pyStartsWith topic base_topic then
      stripSlash (strDropChars topic base_topic.data.length)
    else topic
  topicScan (pySplitSlash relative).reverse payload

/-- The normalization step of `on_message` (lines 217-226): try the
JSON-object shape, swallow decode errors, and fall back to the
scalar-per-topic shape when the structured shape produced nothing.
`payload` is the already stripped message body. -/
def normalize_message (base_topic topic payload : String) : Reading :=
  let parsed : Reading :=
    match parse_json_payload payload with
    | .ok r => r
    | .error _ => []
  if parsed.isEmpty then parse_topic_value topic payload base_topic
  else parsed

/-! ### Collection episode (`read_airlab`, lines 193-272) -/

/-- Closure state of `read_airlab`: accumulated reading, `got_data`
flag, and the first-accepted-message time (`first_msg_time`, a
one-element list in the source, modelled as an `Option`). -/
structure EpState where
  reading : Reading
  got_data : Bool
  first_msg_time : Option ℚ
deriving DecidableEq

/-- Episode state at `loop_start`. -/
def initState : EpState := ⟨[], false, none⟩

/-- `on_message` (lines 208-233) at arrival time `now`: decode+strip
the payload, drop discovery `config` topics, normalize, and on a
non-empty result merge it, set `got_data`, and record the first
arrival time. -/
def handle_message (base_topic : String) (now : ℚ)
    (topic payloadRaw : String) (st : EpState) : EpState :=
  let payload := pyStrip payloadRaw
  if pyEndsWith topic "/config" then st
  else
    let parsed := normalize_message base_topic topic payload
    if parsed.isEmpty then st
    else
      { reading := dictUpdate st.reading parsed
        got_data := true
        first_msg_time :=
          match st.first_msg_time with
          | none => some now
          | some t => some t }

/-- A bus message: arrival time, topic, raw payload.  Episode inputs
are time-sorted lists of these. -/
abbrev TimedMsg := ℚ × String × String

/-- Run the message handler on every queued message that has arrived
by time `t` (the paho network thread runs concurrently with the
polling loop; delivery is modelled at the poll points). -/
def deliverUpTo (base_topic : String) (t : ℚ) :
    List TimedMsg → EpState → EpState × List TimedMsg
  | [], st => (st, [])
  | m :: rest, st =>
    if m.1 ≤ t then
      deliverUpTo base_topic t rest (handle_message base_topic m.1 m.2.1 m.2.2 st)
    else (st, m :: rest)

/-- How the polling loop of `read_airlab` ended. -/
inductive LoopExit where
  | completedWindow
  | deadlineReached
  | interrupted
deriving DecidableEq

/-- The polling loop (lines 257-263): while `now < deadline`, sleep
0.5, then break once the collection window after the first accepted
message has elapsed.  `intr` is the index of the sleep during which
an asynchronous `KeyboardInterrupt`/termination signal arrives, if
any (the loop body has no handler for it, so the loop just stops).
`fuel` bounds the iteration count; the caller supplies enough for the
deadline to be reached first. -/
def poll_loop (base_topic : String) (deadline window : ℚ) (intr : Option Nat) :
    Nat → Nat → ℚ → List TimedMsg → EpState → EpState × LoopExit
  | 0, _, _, _, st => (st, .deadlineReached)
  | fuel + 1, iter, now, msgs, st =>
    if now < deadline then
      if intr == some iter then (st, .interrupted)
      else
        let now' := qadd now (mkRat 1 2)
        match deliverUpTo base_topic now' msgs st with
        | (st', msgs') =>
          match st'.first_msg_time with
          | some t0 =>
            if window ≤ qsub now' t0 then (st', .completedWindow)
            else poll_loop base_topic deadline window intr fuel (iter + 1) now' msgs' st'
          | none =>
            poll_loop base_topic deadline window intr fuel (iter + 1) now' msgs' st'
    else (st, .deadlineReached)

/-- Observable result of `read_airlab`. -/
inductive ReadResult where
  | connectFailed
  | noData
  | gotReading (r : Reading)
  | interrupted
deriving DecidableEq

/-- Bus-level actions performed by `read_airlab` after a successful
connect. -/
inductive BusAction where
  | loopStartA
  | loopStopA
  | disconnectA
deriving DecidableEq

/-- `read_airlab` (lines 193-272): on connect failure return `None`;
otherwise run the polling loop from time 0 with deadline `timeout`
and collection window 3, then stop the loop, disconnect, and return
`None` if no data was accepted, else the accumulated reading.  An
interrupt mid-loop propagates: the function never reaches the
`loop_stop`/`disconnect` calls (there is no `try/finally`).  The
returned trace records the bus actions actually performed. -/
def read_airlab (base_topic : String) (timeout : Nat) (connectOk : Bool)
    (intr : Option Nat) (msgs : List TimedMsg) : ReadResult × List BusAction :=
  if connectOk then
    match poll_loop base_topic (timeout : ℚ) 3 intr (2 * timeout + 1) 0 0 msgs initState with
    | (_, .interrupted) => (.interrupted, [.loopStartA])
    | (stF, _) =>
      if stF.got_data then
        (.gotReading stF.reading, [.loopStartA, .loopStopA, .disconnectA])
      else
        (.noData, [.loopStartA, .loopStopA, .disconnectA])
  else (.connectFailed, [])

/-! ### Durable writer (`insert_reading`, lines 154-187) -/

/-- Outcome of one `execute`+`commit` attempt, as the retry loop
distinguishes them: success, `sqlite3.OperationalError` containing
"database is locked", or any other failure. -/
inductive DbOutcome where
  | ok
  | locked
  | otherErr
deriving DecidableEq

/-- An error propagating out of `insert_reading`. -/
inductive DbError where
  | locked
  | otherErr
deriving DecidableEq

/-- How `insert_reading` finished: committed and returned, raised, or
fell off the end of the `for` loop (unreachable with 3 attempts). -/
inductive InsertStatus where
  | committed
  | raised (e : DbError)
  | fellOff
deriving DecidableEq

/-- Observable behaviour of one `insert_reading` call: final status,
number of `execute` attempts made, and the sleeps performed between
attempts. -/
structure InsertResult where
  status : InsertStatus
  attempts : Nat
  sleeps : List ℚ
deriving DecidableEq

/-- The `for attempt in range(max_retries)` loop of `insert_reading`:
retry only on a locked error with attempts remaining, sleeping
`0.5 * (attempt + 1)`; re-raise otherwise. -/
def insert_go (conn : Nat → DbOutcome) (max_retries : Nat) :
    Nat → Nat → List ℚ → InsertResult
  | 0, attempt, sleeps => ⟨.fellOff, attempt, sleeps⟩
  | rem + 1, attempt, sleeps =>
    match conn attempt with
    | .ok => ⟨.committed, attempt + 1, sleeps⟩
    | .locked =>
      if attempt < max_retries - 1 then
        insert_go conn max_retries rem (attempt + 1)
          (sleeps ++ [mkRat ((attempt : Int) + 1) 2])
      else ⟨.raised .locked, attempt + 1, sleeps⟩
    | .otherErr => ⟨.raised .otherErr, attempt + 1, sleeps⟩

/-- `insert_reading` (lines 154-187) with `max_retries = 3`, driven by
the outcome `conn k` of its k-th attempt. -/
def insert_reading (conn : Nat → DbOutcome) : InsertResult :=
  insert_go conn 3 3 0 []

/-! ### Single-episode mode (`single_reading`, lines 275-297) -/

/-- Terminal behaviour of `single_reading`: the two explicit
`sys.exit(1)` branches, the validation-failure warning branch, the
saved branch, and an exception escaping from `insert_reading`
(which makes the interpreter exit non-zero). -/
inductive SingleResult where
  | exitNoRead
  | exitEmpty
  | notSaved (r : Reading)
  | saved (r : Reading)
  | dbFail (e : DbError)
deriving DecidableEq

/-- `single_reading` (lines 275-297) as a function of the episode
result and the storage outcomes. -/
def single_reading (rr : Option Reading) (conn : Nat → DbOutcome) : SingleResult :=
  match rr with
  | none => .exitNoRead
  | some r =>
    if r.isEmpty then .exitEmpty
    else if validate_reading r then
      match (insert_reading conn).status with
      | .committed => .saved r
      | .raised e => .dbFail e
      | .fellOff => .saved r
    else .notSaved r

/-- Process exit code produced by each `single_reading` outcome:
`sys.exit(1)` and an uncaught exception exit non-zero; a normal
return (saved or validation warning) exits zero. -/
def exit_code : SingleResult → Nat
  | .exitNoRead => 1
  | .exitEmpty => 1
  | .notSaved _ => 0
  | .saved _ => 0
  | .dbFail _ => 1

/-- A whole single-episode invocation: run `read_airlab` and feed its
result to `single_reading`.  `none` means the episode itself was
interrupted, so `single_reading` never completes. -/
def single_episode (base_topic : String) (timeout : Nat) (connectOk : Bool)
    (intr : Option Nat) (msgs : List TimedMsg)
    (conn : Nat → DbOutcome) : Option SingleResult :=
  match (read_airlab base_topic timeout connectOk intr msgs).1 with
  | .interrupted => none
  | .connectFailed => some (single_reading none conn)
  | .noData => some (single_reading none conn)
  | .gotReading r => some (single_reading (some r) conn)

/-- An entry of a JSON object reading as `parse_json_payload` accepts
it: the canonicalized key paired with the coerced value, when both
succeed. -/
def coerceEntry (kv : String × Json) : Option (String × ℚ) :=
  match canonicalize kv.1 with
  | some canon => (try_float_json kv.2).map (fun v => (canon, v))
  | none => none

/-- Modelled from the spec (section 4.2, scalar-per-channel shape):
strip the base prefix, split into segments, accept the first segment
from the right that canonicalizes, and emit a single-entry reading
exactly when the whole payload coerces.  Stated separately from
`parse_topic_value` (which keeps scanning when coercion fails) so the
two can be proved equal. -/
def scalarNormSpec (topic payload base_topic : String) : Reading :=
  let relative :=
    if pyStartsWith topic base_topic then
      stripSlash (strDropChars topic base_topic.data.length)
    else topic
  match (pySplitSlash relative).reverse.findSome? canonicalize with
  | some canon =>
    (match pyFloat payload with
     | some v => [(canon, v)]
     | none => [])
  | none => []

/-- The keys of a reading, in order. -/
def keysOf (r : Reading) : List String := r.map Prod.fst

/-- Episode-state invariant: the `got_data` flag is set exactly when
the accumulated reading is non-empty, and exactly when the first
message time has been recorded. -/
def epInv (st : EpState) : Prop :=
  (st.got_data = true ↔ st.reading ≠ []) ∧
    st.got_data = st.first_msg_time.isSome

/-! ## Theorems -/

/-! ### Character and string lemmas -/

theorem char_toNat_ofNat {n : Nat} (h : n.isValidChar) : (Char.ofNat n).toNat = n := by
  rw [Char.ofNat, dif_pos h]
  simp [Char.ofNatAux, Char.toNat, UInt32.toNat]

theorem char_toLower_toNat (c : Char) :
    (Char.toLower c).toNat =
      if 65 ≤ c.toNat ∧ c.toNat ≤ 90 then c.toNat + 32 else c.toNat := by
  unfold Char.toLower
  split
  · rename_i h
    rw [if_pos (by omega)]
    exact char_toNat_ofNat (Or.inl (by omega))
  · rename_i h
    rw [if_neg (by omega)]

theorem char_eq_of_toNat {c d : Char} (h : c.toNat = d.toNat) : c = d :=
  Char.eq_of_val_eq (UInt32.toNat.inj h)

theorem char_toLower_idem (c : Char) : c.toLower.toLower = c.toLower := by
  apply char_eq_of_toNat
  rw [char_toLower_toNat, char_toLower_toNat c]
  split
  · rename_i h
    rw [if_neg (by omega)]
  · rfl

theorem pyIsSpace_toLower (c : Char) : pyIsSpace c.toLower = pyIsSpace c := by
  unfold pyIsSpace
  apply decide_eq_decide.mpr
  rw [char_toLower_toNat]
  split <;> omega

theorem dropWhile_dropWhile_eq (p : Char → Bool) (l : List Char) :
    (l.dropWhile p).dropWhile p = l.dropWhile p := by
  induction l with
  | nil => rfl
  | cons a t ih =>
    by_cases h : p a
    · simp [List.dropWhile_cons, h, ih]
    · simp [List.dropWhile_cons, h]

theorem dropWhile_map_eq (p : Char → Bool) (f : Char → Char) (l : List Char) :
    (l.map f).dropWhile p = (l.dropWhile fun c => p (f c)).map f := by
  induction l with
  | nil => rfl
  | cons a t ih =>
    by_cases h : p (f a)
    · simp [List.dropWhile_cons, h, ih]
    · simp [List.dropWhile_cons, h]

theorem dropWhile_suffix_list (p : Char → Bool) (l : List Char) :
    l.dropWhile p <:+ l := by
  induction l with
  | nil => exact List.suffix_refl _
  | cons a t ih =>
    by_cases h : p a
    · simpa [List.dropWhile_cons, h] using ih.trans (List.suffix_cons a t)
    · simp [List.dropWhile_cons, h]

theorem dropWhile_eq_self_of_prefix (p : Char → Bool) {l x : List Char}
    (h : l.dropWhile p = l) (hx : x <+: l) : x.dropWhile p = x := by
  cases x with
  | nil => rfl
  | cons a t =>
    obtain ⟨s, hs⟩ := hx
    by_cases pa : p a
    · exfalso
      rw [← hs, List.cons_append, List.dropWhile_cons_of_pos pa] at h
      have hlen := congrArg List.length h
      have hle := (List.dropWhile_suffix p (l := t ++ s)).sublist.length_le
      simp only [List.length_cons, List.length_append] at hlen hle
      omega
    · exact List.dropWhile_cons_of_neg pa

theorem stripWhile_map (p : Char → Bool) (f : Char → Char)
    (hp : ∀ c, p (f c) = p c) (l : List Char) :
    stripWhile p (l.map f) = (stripWhile p l).map f := by
  have hfun : (fun c => p (f c)) = p := funext hp
  unfold stripWhile
  rw [dropWhile_map_eq, hfun, ← List.map_reverse, dropWhile_map_eq, hfun,
    ← List.map_reverse]

theorem stripWhile_front_fixed (p : Char → Bool) (l : List Char) :
    (stripWhile p l).dropWhile p = stripWhile p l := by
  unfold stripWhile
  apply dropWhile_eq_self_of_prefix p (dropWhile_dropWhile_eq p l)
  nth_rewrite 2 [← List.reverse_reverse (l.dropWhile p)]
  exact List.reverse_prefix.mpr (dropWhile_suffix_list p (l.dropWhile p).reverse)

theorem stripWhile_idem (p : Char → Bool) (l : List Char) :
    stripWhile p (stripWhile p l) = stripWhile p l := by
  conv_lhs => rw [stripWhile, stripWhile_front_fixed]
  rw [stripWhile, List.reverse_reverse,
    show (l.dropWhile p).reverse.dropWhile p =
      ((l.dropWhile p).reverse.dropWhile p).dropWhile p from
        (dropWhile_dropWhile_eq p _).symm]
  rw [dropWhile_dropWhile_eq]

theorem pyNorm_idem (s : String) :
    pyStrip (pyLower (pyStrip (pyLower s))) = pyStrip (pyLower s) := by
  show String.mk _ = String.mk _
  unfold pyStrip pyLower
  congr 1
  show stripWhile pyIsSpace ((stripWhile pyIsSpace (s.data.map Char.toLower)).map Char.toLower)
      = stripWhile pyIsSpace (s.data.map Char.toLower)
  rw [stripWhile_map pyIsSpace Char.toLower pyIsSpace_toLower]
  rw [stripWhile_idem]
  rw [← stripWhile_map pyIsSpace Char.toLower pyIsSpace_toLower]
  rw [List.map_map]
  rw [show (Char.toLower ∘ Char.toLower) = Char.toLower from funext char_toLower_idem]

/-! ### The model arithmetic agrees with rational arithmetic -/

theorem qadd_eq (a b : ℚ) : qadd a b = a + b := by
  unfold qadd
  rw [Rat.mkRat_eq_div]
  have ha : ((a.den : ℚ)) ≠ 0 := Nat.cast_ne_zero.mpr a.den_nz
  have hb : ((b.den : ℚ)) ≠ 0 := Nat.cast_ne_zero.mpr b.den_nz
  conv_rhs => rw [← Rat.num_div_den a, ← Rat.num_div_den b]
  push_cast
  field_simp

theorem qsub_eq (a b : ℚ) : qsub a b = a - b := by
  unfold qsub
  rw [qadd_eq]
  ring

/-! ### Claim C6 -/

/-- Claim C6: for every string `s`, `canonicalize s` equals
`canonicalize` of `s` lower-cased and whitespace-trimmed (matching is
case- and whitespace-insensitive), and canonicalization is the
identity (wrapped in `some`) on every canonical metric name. -/
theorem canonicalize_case_whitespace_insensitive :
    (∀ s : String, canonicalize s = canonicalize (pyStrip (pyLower s))) ∧
      ∀ m ∈ canonicalMetricNames, canonicalize m = some m := by
  constructor
  · intro s
    unfold canonicalize
    rw [pyNorm_idem]
  · intro m hm
    fin_cases hm <;> decide

/-- Witness for C6 at concrete inputs. -/
theorem canonicalize_case_whitespace_insensitive_w :
    canonicalize " CO2 " = canonicalize (pyStrip (pyLower " CO2 ")) ∧
      canonicalize "co2_ppm" = some "co2_ppm" :=
  ⟨canonicalize_case_whitespace_insensitive.1 " CO2 ",
   canonicalize_case_whitespace_insensitive.2 "co2_ppm" (by simp [canonicalMetricNames])⟩

/-! ### Claim C2 -/

/-- Claim C2: `validate_reading` passes iff every entry whose key has
a defined validity range lies within the inclusive bounds; one
out-of-range entry fails the whole reading, and keys without a range
(in particular, absent metrics) are not checked. -/
theorem validate_reading_iff_in_range (r : Reading) :
    validate_reading r = true ↔
      ∀ kv ∈ r, ∀ b : ℚ × ℚ,
        dictGet VALID_RANGES kv.1 = some b → b.1 ≤ kv.2 ∧ kv.2 ≤ b.2 := by
  induction r with
  | nil => simp [validate_reading]
  | cons kv rest ih =>
    cases hb : dictGet VALID_RANGES kv.1 with
    | none =>
      simp only [validate_reading, hb]
      rw [ih]
      constructor
      · intro h x hx b hbx
        rcases List.mem_cons.mp hx with rfl | hmem
        · rw [hb] at hbx
          exact absurd hbx (by simp)
        · exact h x hmem b hbx
      · intro h x hx b hbx
        exact h x (List.mem_cons_of_mem kv hx) b hbx
    | some bounds =>
      by_cases hin : bounds.1 ≤ kv.2 ∧ kv.2 ≤ bounds.2
      · simp only [validate_reading, hb, if_pos hin]
        rw [ih]
        constructor
        · intro h x hx b hbx
          rcases List.mem_cons.mp hx with rfl | hmem
          · rw [hb] at hbx
            injection hbx with hbb
            subst hbb
            exact hin
          · exact h x hmem b hbx
        · intro h x hx b hbx
          exact h x (List.mem_cons_of_mem kv hx) b hbx
      · simp only [validate_reading, hb, if_neg hin, Bool.false_eq_true, false_iff]
        intro h
        exact hin (h kv (List.mem_cons_self kv rest) bounds hb)

/-- Witness for C2: the spec's example reading fails as a whole
because of the out-of-range temperature, although the CO2 value alone
would pass. -/
theorem validate_reading_iff_in_range_w :
    validate_reading [("temperature_c", (150 : ℚ)), ("co2_ppm", 800)] = false := by
  have h := validate_reading_iff_in_range
    [("temperature_c", (150 : ℚ)), ("co2_ppm", 800)]
  cases hv : validate_reading [("temperature_c", (150 : ℚ)), ("co2_ppm", 800)] with
  | false => rfl
  | true =>
    have hall := (h.mp hv) ("temperature_c", 150)
      (List.mem_cons_self _ _) ((-40 : ℚ), 85) (by decide)
    exact absurd hall.2 (by decide)

/-! ### Durable-writer lemmas and Claim C7 -/

/-- The `for` loop of `insert_reading` never falls off the end: with
three attempts, the last attempt either commits or re-raises. -/
theorem insert_status_ne_fellOff (conn : Nat → DbOutcome) :
    (insert_reading conn).status ≠ .fellOff := by
  cases h0 : conn 0 <;> cases h1 : conn 1 <;> cases h2 : conn 2 <;>
    simp [insert_reading, insert_go, h0, h1, h2]

/-- At most three attempts are ever made. -/
theorem insert_attempts_le (conn : Nat → DbOutcome) :
    (insert_reading conn).attempts ≤ 3 := by
  cases h0 : conn 0 <;> cases h1 : conn 1 <;> cases h2 : conn 2 <;>
    simp [insert_reading, insert_go, h0, h1, h2]

/-- Every attempt that was followed by another attempt had reported a
locked error. -/
theorem insert_retry_only_locked (conn : Nat → DbOutcome) :
    ∀ j, j + 1 < (insert_reading conn).attempts → conn j = .locked := by
  intro j hj
  cases h0 : conn 0 with
  | ok =>
    have ha : (insert_reading conn).attempts = 1 := by
      simp [insert_reading, insert_go, h0]
    rw [ha] at hj
    exact absurd hj (by omega)
  | otherErr =>
    have ha : (insert_reading conn).attempts = 1 := by
      simp [insert_reading, insert_go, h0]
    rw [ha] at hj
    exact absurd hj (by omega)
  | locked =>
    cases h1 : conn 1 with
    | ok =>
      have ha : (insert_reading conn).attempts = 2 := by
        simp [insert_reading, insert_go, h0, h1]
      rw [ha] at hj
      have hj0 : j = 0 := by omega
      subst hj0
      exact h0
    | otherErr =>
      have ha : (insert_reading conn).attempts = 2 := by
        simp [insert_reading, insert_go, h0, h1]
      rw [ha] at hj
      have hj0 : j = 0 := by omega
      subst hj0
      exact h0
    | locked =>
      have ha : (insert_reading conn).attempts = 3 := by
        cases h2 : conn 2 <;> simp [insert_reading, insert_go, h0, h1, h2]
      rw [ha] at hj
      have hj01 : j = 0 ∨ j = 1 := by omega
      rcases hj01 with rfl | rfl
      · exact h0
      · exact h1

/-- The sleeps performed are 0.5 then 1.0, one fewer than the number
of attempts. -/
theorem insert_sleeps_eq (conn : Nat → DbOutcome) :
    (insert_reading conn).sleeps =
      [mkRat 1 2, 1].take ((insert_reading conn).attempts - 1) := by
  cases h0 : conn 0 <;> cases h1 : conn 1 <;> cases h2 : conn 2 <;>
    (simp [insert_reading, insert_go, h0, h1, h2]; try decide)

/-- A non-locked failure on attempt `j` (with only locked failures
before it) propagates immediately at attempt `j + 1` in total. -/
theorem insert_other_immediate (conn : Nat → DbOutcome) :
    ∀ j, j < 3 → (∀ i, i < j → conn i = .locked) → conn j = .otherErr →
      insert_reading conn =
        ⟨.raised .otherErr, j + 1, [mkRat 1 2, 1].take j⟩ := by
  intro j hj hprev hother
  interval_cases j
  · simp [insert_reading, insert_go, hother]
  · have h0 := hprev 0 (by omega)
    simp [insert_reading, insert_go, h0, hother]
    try decide
  · have h0 := hprev 0 (by omega)
    have h1 := hprev 1 (by omega)
    simp [insert_reading, insert_go, h0, h1, hother]
    try decide

/-- Persistent contention raises the locked error as fatal after the
third attempt, having slept 0.5 and 1.0. -/
theorem insert_all_locked (conn : Nat → DbOutcome) :
    (∀ i, i < 3 → conn i = .locked) →
      insert_reading conn = ⟨.raised .locked, 3, [mkRat 1 2, 1]⟩ := by
  intro h
  have h0 := h 0 (by omega)
  have h1 := h 1 (by omega)
  have h2 := h 2 (by omega)
  simp [insert_reading, insert_go, h0, h1, h2]
  try decide

/-- The write commits exactly when some attempt within the first
three succeeds after a run of locked attempts. -/
theorem insert_committed_iff (conn : Nat → DbOutcome) :
    (insert_reading conn).status = .committed ↔
      ∃ j, j < 3 ∧ conn j = .ok ∧ ∀ i, i < j → conn i = .locked := by
  constructor
  · intro hc
    cases h0 : conn 0 with
    | ok => exact ⟨0, by omega, h0, fun i hi => absurd hi (by omega)⟩
    | otherErr => simp [insert_reading, insert_go, h0] at hc
    | locked =>
      cases h1 : conn 1 with
      | ok =>
        refine ⟨1, by omega, h1, fun i hi => ?_⟩
        have : i = 0 := by omega
        subst this
        exact h0
      | otherErr => simp [insert_reading, insert_go, h0, h1] at hc
      | locked =>
        cases h2 : conn 2 with
        | ok =>
          refine ⟨2, by omega, h2, fun i hi => ?_⟩
          have : i = 0 ∨ i = 1 := by omega
          rcases this with rfl | rfl
          · exact h0
          · exact h1
        | otherErr => simp [insert_reading, insert_go, h0, h1, h2] at hc
        | locked => simp [insert_reading, insert_go, h0, h1, h2] at hc
  · rintro ⟨j, hj, hok, hprev⟩
    interval_cases j
    · simp [insert_reading, insert_go, hok]
    · have h0 := hprev 0 (by omega)
      simp [insert_reading, insert_go, h0, hok]
    · have h0 := hprev 0 (by omega)
      have h1 := hprev 1 (by omega)
      simp [insert_reading, insert_go, h0, h1, hok]

/-- Claim C7: `insert_reading` makes at most 3 attempts, retries only
after a locked error (sleeping 0.5 then 1.0 between attempts),
propagates any other failure immediately without retry, propagates
the locked error as fatal on the third attempt, and commits exactly
when some attempt succeeds after a (possibly empty) run of locked
attempts. -/
theorem insert_reading_retry_policy (conn : Nat → DbOutcome) :
    (insert_reading conn).attempts ≤ 3 ∧
    (∀ j, j + 1 < (insert_reading conn).attempts → conn j = .locked) ∧
    (insert_reading conn).sleeps =
      [mkRat 1 2, 1].take ((insert_reading conn).attempts - 1) ∧
    (∀ j, j < 3 → (∀ i, i < j → conn i = .locked) → conn j = .otherErr →
      insert_reading conn =
        ⟨.raised .otherErr, j + 1, [mkRat 1 2, 1].take j⟩) ∧
    ((∀ i, i < 3 → conn i = .locked) →
      insert_reading conn = ⟨.raised .locked, 3, [mkRat 1 2, 1]⟩) ∧
    ((insert_reading conn).status = .committed ↔
      ∃ j, j < 3 ∧ conn j = .ok ∧ ∀ i, i < j → conn i = .locked) :=
  ⟨insert_attempts_le conn, insert_retry_only_locked conn, insert_sleeps_eq conn,
   insert_other_immediate conn, insert_all_locked conn, insert_committed_iff conn⟩

/-- Witness for C7: under contention on the first attempt only, the
write succeeds on attempt 2 of 3 after a 0.5 sleep; under contention
on all attempts it fails after exactly 3 attempts. -/
theorem insert_reading_retry_policy_w :
    (insert_reading (fun n => if n = 0 then .locked else .ok)).attempts ≤ 3 ∧
    insert_reading (fun _ => DbOutcome.locked) =
      ⟨.raised .locked, 3, [mkRat 1 2, 1]⟩ ∧
    (insert_reading (fun n => if n = 0 then .locked else .ok)).status =
      .committed := by
  refine ⟨(insert_reading_retry_policy (fun n => if n = 0 then .locked else .ok)).1,
    (insert_reading_retry_policy (fun _ => DbOutcome.locked)).2.2.2.2.1 ?_,
    (insert_reading_retry_policy (fun n => if n = 0 then .locked else .ok)).2.2.2.2.2.mpr
      ⟨1, by omega, by decide, ?_⟩⟩
  · intro i _
    rfl
  · intro i hi
    have : i = 0 := by omega
    subst this
    rfl

/-! ### Claim C1 (corrected) -/

/-- Counterexample to C1 as stated: the merged reading
`{temperature_c: 150.0}` fails range validation and is discarded and
not written, but `single_reading` then returns normally, so the
process exits ZERO, not non-zero. -/
theorem validation_failure_exits_zero_cex :
    single_reading (some [("temperature_c", (150 : ℚ))]) (fun _ => DbOutcome.ok) =
      .notSaved [("temperature_c", 150)] ∧
    exit_code (single_reading (some [("temperature_c", (150 : ℚ))])
      (fun _ => DbOutcome.ok)) = 0 := by
  decide

/-- Claim C1 (amended): when the merged reading fails range
validation it is discarded and not written and the process exits
ZERO (the failure is only warned about); apart from this
validation-warning path, a zero exit occurs only after a successful
durable write. -/
theorem single_reading_exit_behavior :
    (∀ (conn : Nat → DbOutcome) (r : Reading),
       r ≠ [] → validate_reading r = false →
       single_reading (some r) conn = .notSaved r ∧
         exit_code (single_reading (some r) conn) = 0) ∧
    (∀ (rr : Option Reading) (conn : Nat → DbOutcome),
       exit_code (single_reading rr conn) = 0 →
         (∃ r, single_reading rr conn = .saved r ∧
            (insert_reading conn).status = .committed) ∨
         (∃ r, single_reading rr conn = .notSaved r ∧
            validate_reading r = false)) := by
  constructor
  · intro conn r hne hval
    have hni : r.isEmpty = false := by
      cases r with
      | nil => exact absurd rfl hne
      | cons a t => rfl
    constructor
    · simp [single_reading, hni, hval]
    · simp [single_reading, hni, hval, exit_code]
  · intro rr conn h
    cases rr with
    | none => simp [single_reading, exit_code] at h
    | some r =>
      cases hni : r.isEmpty with
      | true => simp [single_reading, hni, exit_code] at h
      | false =>
        cases hval : validate_reading r with
        | false =>
          right
          exact ⟨r, by simp [single_reading, hni, hval], hval⟩
        | true =>
          cases hs : (insert_reading conn).status with
          | committed =>
            left
            exact ⟨r, by simp [single_reading, hni, hval, hs], rfl⟩
          | raised e => simp [single_reading, hni, hval, hs, exit_code] at h
          | fellOff => exact absurd hs (insert_status_ne_fellOff conn)

/-- Witness for C1 (amended) at the spec's example reading. -/
theorem single_reading_exit_behavior_w :
    single_reading (some [("temperature_c", (150 : ℚ)), ("co2_ppm", 800)])
        (fun _ => DbOutcome.ok) =
      .notSaved [("temperature_c", 150), ("co2_ppm", 800)] ∧
    exit_code (single_reading (some [("temperature_c", (150 : ℚ)), ("co2_ppm", 800)])
        (fun _ => DbOutcome.ok)) = 0 :=
  single_reading_exit_behavior.1 (fun _ => DbOutcome.ok)
    [("temperature_c", 150), ("co2_ppm", 800)] (by decide) (by decide)

/-! ### Claim C5 -/

/-- If the payload does not coerce to a float, the topic-segment scan
yields the empty reading. -/
theorem topicScan_float_none (parts : List String) (payload : String)
    (h : pyFloat payload = none) : topicScan parts payload = [] := by
  induction parts with
  | nil => rfl
  | cons part rest ih =>
    cases hc : canonicalize part <;> simp [topicScan, hc, h, ih]

/-- The scanning loop of `parse_topic_value` (which keeps scanning
when float coercion fails) computes the same reading as taking the
first canonicalizable segment and then testing coercion once. -/
theorem topicScan_eq_findSome (parts : List String) (payload : String) :
    topicScan parts payload =
      match parts.findSome? canonicalize with
      | some canon =>
        (match pyFloat payload with
         | some v => [(canon, v)]
         | none => [])
      | none => [] := by
  induction parts with
  | nil => rfl
  | cons part rest ih =>
    cases hc : canonicalize part with
    | none => simp [topicScan, List.findSome?_cons, hc, ih]
    | some c =>
      cases hf : pyFloat payload with
      | some v => simp [topicScan, List.findSome?_cons, hc, hf]
      | none =>
        simp [topicScan, List.findSome?_cons, hc, hf,
          topicScan_float_none rest payload hf]

/-- Claim C5: scalar-per-channel normalization strips the base
prefix, splits into segments, accepts the first segment from the
right that canonicalizes, and returns a single-entry reading exactly
when the whole payload coerces (`scalarNormSpec` is the spec's
wording; it is proved equal to the source's `parse_topic_value`);
the fallback is used only when the structured shape produced an
empty result; and the spec's example holds. -/
theorem parse_topic_value_rightmost :
    (∀ topic payload base_topic,
       parse_topic_value topic payload base_topic =
         scalarNormSpec topic payload base_topic) ∧
    (∀ base_topic topic payload r,
       parse_json_payload payload = .ok r → r ≠ [] →
       normalize_message base_topic topic payload = r) ∧
    parse_topic_value "airlab/sensor1/co2" "800" "airlab" = [("co2_ppm", 800)] := by
  refine ⟨?_, ?_, ?_⟩
  · intro topic payload base_topic
    unfold parse_topic_value scalarNormSpec
    rw [topicScan_eq_findSome]
  · intro b topic payload r hok hne
    cases r with
    | nil => exact absurd rfl hne
    | cons a t => simp [normalize_message, hok]
  · rw [show (800 : ℚ) = mkRat 800 1 from by rw [Rat.mkRat_eq_div]; norm_num]
    rfl

/-- Witness for C5 at concrete inputs. -/
theorem parse_topic_value_rightmost_w :
    parse_topic_value "airlab/sensor1/co2" "21.5" "airlab" =
      scalarNormSpec "airlab/sensor1/co2" "21.5" "airlab" ∧
    normalize_message "airlab" "airlab/device" "\x7b\"co2\": 800\x7d" =
      [("co2_ppm", mkRat 800 1)] :=
  ⟨parse_topic_value_rightmost.1 "airlab/sensor1/co2" "21.5" "airlab",
   parse_topic_value_rightmost.2.1 "airlab" "airlab/device" "\x7b\"co2\": 800\x7d"
     [("co2_ppm", mkRat 800 1)] rfl (by decide)⟩

/-! ### Claim C3 -/

/-- Claim C3: the composed normalization step of the message handler
is total: a JSON decode error is swallowed and control falls through
to the scalar-per-topic shape; if the structured shape produced
nothing and the fallback also produces nothing, the result is the
empty reading; and the spec's malformed-payload example normalizes
to the empty reading. -/
theorem normalize_message_total :
    (∀ base_topic topic payload e,
       parse_json_payload payload = .error e →
       normalize_message base_topic topic payload =
         parse_topic_value topic payload base_topic) ∧
    (∀ base_topic topic payload,
       (∀ r, parse_json_payload payload = .ok r → r = []) →
       parse_topic_value topic payload base_topic = [] →
       normalize_message base_topic topic payload = []) ∧
    normalize_message "airlab" "airlab/some/channel" "not-json\x7b\x7b\x7b" = [] := by
  refine ⟨?_, ?_, by decide⟩
  · intro b topic payload e he
    simp [normalize_message, he]
  · intro b topic payload hok hfall
    cases hp : parse_json_payload payload with
    | error e => simp [normalize_message, hp, hfall]
    | ok r =>
      have hr : r = [] := hok r hp
      subst hr
      simp [normalize_message, hp, hfall]

/-- Witness for C3: the malformed payload on an unrecognized channel
exercises both the fall-through and the empty-result conclusion. -/
theorem normalize_message_total_w :
    normalize_message "airlab" "airlab/some/channel" "not-json\x7b\x7b\x7b" =
      parse_topic_value "airlab/some/channel" "not-json\x7b\x7b\x7b" "airlab" ∧
    normalize_message "airlab" "other/topic" "not-json\x7b\x7b\x7b" = [] :=
  ⟨normalize_message_total.1 "airlab" "airlab/some/channel" "not-json\x7b\x7b\x7b"
     "Expecting value" rfl,
   normalize_message_total.2.1 "airlab" "other/topic" "not-json\x7b\x7b\x7b"
     (fun r h => by
       rw [show parse_json_payload "not-json\x7b\x7b\x7b" =
             Except.error "Expecting value" from rfl] at h
       cases h)
     (by decide)⟩

/-! ### Claim C4 -/

/-- Setting a key absent from the dict appends the new entry. -/
theorem dictSet_append_of_not_mem (r : Reading) (k : String) (v : ℚ)
    (h : k ∉ keysOf r) : dictSet r k v = r ++ [(k, v)] := by
  unfold dictSet
  rw [if_neg]
  intro hany
  rcases List.any_eq_true.mp hany with ⟨kv, hkv, hbeq⟩
  have hk : kv.1 = k := by simpa using hbeq
  exact h (List.mem_map.mpr ⟨kv, hkv, hk⟩)

/-- The member loop of `parse_json_payload` appends exactly the
coercible entries when their canonical keys collide neither with each
other nor with the accumulator. -/
theorem objToReadingAux_eq (members : List (String × Json)) :
    ∀ acc : Reading,
      (keysOf (acc ++ members.filterMap coerceEntry)).Nodup →
      objToReadingAux acc members = acc ++ members.filterMap coerceEntry := by
  induction members with
  | nil =>
    intro acc _
    simp [objToReadingAux]
  | cons kv rest ih =>
    intro acc h
    cases hc : canonicalize kv.1 with
    | none =>
      have hce : coerceEntry kv = none := by simp [coerceEntry, hc]
      rw [List.filterMap_cons_none hce] at h ⊢
      simp only [objToReadingAux, hc]
      exact ih acc h
    | some c =>
      cases hf : try_float_json kv.2 with
      | none =>
        have hce : coerceEntry kv = none := by simp [coerceEntry, hc, hf]
        rw [List.filterMap_cons_none hce] at h ⊢
        simp only [objToReadingAux, hc, hf]
        exact ih acc h
      | some v =>
        have hce : coerceEntry kv = some (c, v) := by simp [coerceEntry, hc, hf]
        rw [List.filterMap_cons_some hce] at h ⊢
        have hnotmem : c ∉ keysOf acc := by
          intro hmem
          have hcmem : c ∈ keysOf ((c, v) :: rest.filterMap coerceEntry) := by
            simp [keysOf]
          have hdisj := (List.nodup_append.mp (by
            simpa [keysOf, List.map_append] using h)).2.2
          exact hdisj hmem hcmem
        simp only [objToReadingAux, hc, hf]
        rw [dictSet_append_of_not_mem acc c v hnotmem]
        rw [ih (acc ++ [(c, v)]) (by simpa [keysOf, List.append_assoc] using h)]
        simp [List.append_assoc]

/-- Duplicate object keys are collapsed by `json_loads` exactly as
Python's dict does: in `\x7b"co2": 800, "co2": "x"\x7d` the later
`"x"` wins, fails float coercion, and the whole payload normalizes to
the empty reading. -/
theorem json_duplicate_keys_last_wins :
    json_loads "\x7b\"co2\": 800, \"co2\": \"x\"\x7d" =
      .ok (.obj [("co2", Json.str "x")]) ∧
    parse_json_payload "\x7b\"co2\": 800, \"co2\": \"x\"\x7d" = .ok [] :=
  ⟨rfl, rfl⟩

/-- Claim C4: for every payload parsing as a JSON object (without
canonical-key collisions), structured-object normalization returns
exactly the entries whose key canonicalizes to a known metric and
whose value coerces to a float, dropping all other entries; in
particular the spec's example payload yields exactly
`{co2_ppm: 800.0, temperature_c: 21.5}`. -/
theorem parse_json_payload_exact_entries :
    (∀ payload members,
       json_loads payload = .ok (.obj members) →
       (keysOf (members.filterMap coerceEntry)).Nodup →
       parse_json_payload payload = .ok (members.filterMap coerceEntry)) ∧
    parse_json_payload "\x7b\"co2\": 800, \"temp\": 21.5, \"unknown_field\": \"x\"\x7d" =
      .ok [("co2_ppm", 800), ("temperature_c", 21.5)] := by
  constructor
  · intro payload members hload hnd
    simp only [parse_json_payload, hload]
    unfold objToReading
    rw [objToReadingAux_eq members [] (by simpa using hnd)]
    simp
  · rw [show (21.5 : ℚ) = mkRat 43 2 from by rw [Rat.mkRat_eq_div]; norm_num,
        show (800 : ℚ) = mkRat 800 1 from by rw [Rat.mkRat_eq_div]; norm_num]
    rfl

/-- Witness for C4 at the spec's example payload. -/
theorem parse_json_payload_exact_entries_w :
    parse_json_payload "\x7b\"co2\": 801, \"temp\": 21.5, \"unknown_field\": \"x\"\x7d" =
      .ok ([("co2", Json.num (mkRat 801 1)), ("temp", Json.num (mkRat 43 2)),
            ("unknown_field", Json.str "x")].filterMap coerceEntry) :=
  parse_json_payload_exact_entries.1
    "\x7b\"co2\": 801, \"temp\": 21.5, \"unknown_field\": \"x\"\x7d"
    [("co2", Json.num (mkRat 801 1)), ("temp", Json.num (mkRat 43 2)),
     ("unknown_field", Json.str "x")]
    rfl (by decide)

/-! ### Episode-state lemmas -/

/-- `dict[k] = v` never shrinks the dict. -/
theorem dictSet_length_ge (r : Reading) (k : String) (v : ℚ) :
    r.length ≤ (dictSet r k v).length := by
  unfold dictSet
  split
  · simp
  · simp

/-- `dict[k] = v` never produces the empty dict. -/
theorem dictSet_ne_nil (r : Reading) (k : String) (v : ℚ) :
    dictSet r k v ≠ [] := by
  unfold dictSet
  split
  · rename_i h
    cases r with
    | nil => simp at h
    | cons a t => simp
  · simp

/-- `d.update(p)` never shrinks the dict. -/
theorem dictUpdate_length_ge (p r : Reading) :
    r.length ≤ (dictUpdate r p).length := by
  induction p generalizing r with
  | nil => simp [dictUpdate]
  | cons kv rest ih =>
    calc r.length ≤ (dictSet r kv.1 kv.2).length := dictSet_length_ge r kv.1 kv.2
      _ ≤ (dictUpdate (dictSet r kv.1 kv.2) rest).length := ih _
      _ = (dictUpdate r (kv :: rest)).length := rfl

/-- Updating with a non-empty dict yields a non-empty dict. -/
theorem dictUpdate_ne_nil (r p : Reading) (h : p ≠ []) :
    dictUpdate r p ≠ [] := by
  cases p with
  | nil => exact absurd rfl h
  | cons kv rest =>
    have h1 : 0 < (dictSet r kv.1 kv.2).length :=
      List.length_pos.mpr (dictSet_ne_nil r kv.1 kv.2)
    have h2 := dictUpdate_length_ge rest (dictSet r kv.1 kv.2)
    apply List.length_pos.mp
    have e : dictUpdate r (kv :: rest) = dictUpdate (dictSet r kv.1 kv.2) rest := rfl
    rw [e]
    omega

/-- The invariant holds at episode start. -/
theorem epInv_initState : epInv initState := by
  constructor <;> simp [initState, epInv]

/-- The message handler preserves the episode invariant. -/
theorem epInv_handle (b : String) (now : ℚ) (topic payload : String)
    (st : EpState) (h : epInv st) :
    epInv (handle_message b now topic payload st) := by
  by_cases hconf : pyEndsWith topic "/config" = true
  · simpa [handle_message, hconf] using h
  · have hconf' : pyEndsWith topic "/config" = false := by
      simpa using hconf
    by_cases hp : (normalize_message b topic (pyStrip payload)).isEmpty = true
    · simpa [handle_message, hconf', hp] using h
    · have hp' : (normalize_message b topic (pyStrip payload)).isEmpty = false := by
        simpa using hp
      have hne : normalize_message b topic (pyStrip payload) ≠ [] := by
        intro hnil
        rw [hnil] at hp'
        simp at hp'
      refine ⟨?_, ?_⟩
      · simp only [handle_message, hconf', hp']
        simp only [Bool.false_eq_true, if_false]
        constructor
        · intro _
          exact dictUpdate_ne_nil st.reading _ hne
        · intro _
          trivial
      · simp only [handle_message, hconf', hp']
        simp only [Bool.false_eq_true, if_false]
        cases st.first_msg_time <;> simp

/-- Delivering any batch of messages preserves the invariant. -/
theorem epInv_deliver (b : String) (t : ℚ) :
    ∀ (msgs : List TimedMsg) (st : EpState), epInv st →
      epInv (deliverUpTo b t msgs st).1 := by
  intro msgs
  induction msgs with
  | nil => intro st h; exact h
  | cons m rest ih =>
    intro st h
    unfold deliverUpTo
    split
    · exact ih _ (epInv_handle b m.1 m.2.1 m.2.2 st h)
    · exact h

/-- The polling loop preserves the invariant. -/
theorem epInv_poll (b : String) (d w : ℚ) (intr : Option Nat) :
    ∀ (fuel iter : Nat) (now : ℚ) (msgs : List TimedMsg) (st : EpState),
      epInv st → epInv (poll_loop b d w intr fuel iter now msgs st).1 := by
  intro fuel
  induction fuel with
  | zero => intro iter now msgs st h; exact h
  | succ fuel ih =>
    intro iter now msgs st h
    simp only [poll_loop]
    split
    · split
      · exact h
      · rcases hdel : deliverUpTo b (qadd now (mkRat 1 2)) msgs st with ⟨st', msgs'⟩
        have h' : epInv st' := by
          have hd := epInv_deliver b (qadd now (mkRat 1 2)) msgs st h
          rw [hdel] at hd
          exact hd
        simp only [hdel]
        cases hfm : st'.first_msg_time with
        | some t0 =>
          simp only [hfm]
          split
          · exact h'
          · exact ih _ _ _ _ h'
        | none =>
          simp only [hfm]
          exact ih _ _ _ _ h'
    · exact h

/-- Without an interrupt, the polling loop never reports an
interrupted exit. -/
theorem poll_ne_interrupted (b : String) (d w : ℚ) :
    ∀ (fuel iter : Nat) (now : ℚ) (msgs : List TimedMsg) (st : EpState),
      (poll_loop b d w none fuel iter now msgs st).2 ≠ .interrupted := by
  intro fuel
  induction fuel with
  | zero =>
    intro iter now msgs st
    simp [poll_loop]
  | succ fuel ih =>
    intro iter now msgs st
    simp only [poll_loop]
    split
    · split
      · rename_i hcond
        exact absurd hcond (by simp [show ((none : Option Nat) == some iter) = false from rfl])
      · rcases hdel : deliverUpTo b (qadd now (mkRat 1 2)) msgs st with ⟨st', msgs'⟩
        simp only [hdel]
        cases hfm : st'.first_msg_time with
        | some t0 =>
          simp only [hfm]
          split
          · simp
          · exact ih _ _ _ _
        | none =>
          simp only [hfm]
          exact ih _ _ _ _
    · simp

/-- A window-completed exit can only happen after the first-message
time has been recorded. -/
theorem poll_completed_first_isSome (b : String) (d w : ℚ) (intr : Option Nat) :
    ∀ (fuel iter : Nat) (now : ℚ) (msgs : List TimedMsg) (st : EpState),
      (poll_loop b d w intr fuel iter now msgs st).2 = .completedWindow →
      (poll_loop b d w intr fuel iter now msgs st).1.first_msg_time.isSome := by
  intro fuel
  induction fuel with
  | zero =>
    intro iter now msgs st hc
    simp [poll_loop] at hc
  | succ fuel ih =>
    intro iter now msgs st
    simp only [poll_loop]
    split
    · split
      · intro hc
        simp at hc
      · rcases hdel : deliverUpTo b (qadd now (mkRat 1 2)) msgs st with ⟨st', msgs'⟩
        simp only [hdel]
        cases hfm : st'.first_msg_time with
        | some t0 =>
          simp only [hfm]
          split
          · intro _
            simp [hfm]
          · exact ih _ _ _ _
        | none =>
          simp only [hfm]
          exact ih _ _ _ _
    · intro hc
      simp at hc

/-- The message handler never shrinks the accumulated reading. -/
theorem handle_reading_grows (b : String) (now : ℚ) (topic payload : String)
    (st : EpState) :
    st.reading.length ≤ (handle_message b now topic payload st).reading.length := by
  by_cases hconf : pyEndsWith topic "/config" = true
  · simp [handle_message, hconf]
  · have hconf' : pyEndsWith topic "/config" = false := by simpa using hconf
    by_cases hp : (normalize_message b topic (pyStrip payload)).isEmpty = true
    · simp [handle_message, hconf', hp]
    · have hp' : (normalize_message b topic (pyStrip payload)).isEmpty = false := by
        simpa using hp
      simp only [handle_message, hconf', hp']
      simp only [Bool.false_eq_true, if_false]
      exact dictUpdate_length_ge _ _

/-- `read_airlab` only ever returns a non-empty reading. -/
theorem read_airlab_got_nonempty (b : String) (timeout : Nat) (connectOk : Bool)
    (intr : Option Nat) (msgs : List TimedMsg) (r : Reading)
    (h : (read_airlab b timeout connectOk intr msgs).1 = .gotReading r) : r ≠ [] := by
  cases connectOk with
  | false => simp [read_airlab] at h
  | true =>
    rcases hpoll : poll_loop b (timeout : ℚ) 3 intr (2 * timeout + 1) 0 0 msgs initState
      with ⟨stF, ex⟩
    have hinv : epInv stF := by
      have h0 := epInv_poll b (timeout : ℚ) 3 intr (2 * timeout + 1) 0 0 msgs
        initState epInv_initState
      rw [hpoll] at h0
      exact h0
    cases ex with
    | interrupted => simp [read_airlab, hpoll] at h
    | completedWindow =>
      cases hgd : stF.got_data with
      | false => simp [read_airlab, hpoll, hgd] at h
      | true =>
        have hne : stF.reading ≠ [] := hinv.1.mp hgd
        simp [read_airlab, hpoll, hgd] at h
        exact h ▸ hne
    | deadlineReached =>
      cases hgd : stF.got_data with
      | false => simp [read_airlab, hpoll, hgd] at h
      | true =>
        have hne : stF.reading ≠ [] := hinv.1.mp hgd
        simp [read_airlab, hpoll, hgd] at h
        exact h ▸ hne

/-! ### Claim C10 -/

/-- Claim C10: the `got_data` flag is true exactly when the
accumulated reading is non-empty (the reading only ever grows and the
flag is set with the first merged non-empty result); consequently
`read_airlab` returns either no reading or a non-empty one, and the
empty-reading exit branch of `single_reading` is unreachable. -/
theorem got_data_iff_nonempty_reading :
    (∀ (b : String) (now : ℚ) (topic payload : String) (st : EpState),
       epInv st →
       epInv (handle_message b now topic payload st) ∧
         st.reading.length ≤ (handle_message b now topic payload st).reading.length) ∧
    (∀ (b : String) (timeout : Nat) (connectOk : Bool) (intr : Option Nat)
       (msgs : List TimedMsg) (r : Reading),
       (read_airlab b timeout connectOk intr msgs).1 = .gotReading r → r ≠ []) ∧
    (∀ (b : String) (timeout : Nat) (connectOk : Bool) (intr : Option Nat)
       (msgs : List TimedMsg) (conn : Nat → DbOutcome),
       single_episode b timeout connectOk intr msgs conn ≠ some .exitEmpty) := by
  refine ⟨fun b now topic payload st h =>
    ⟨epInv_handle b now topic payload st h, handle_reading_grows b now topic payload st⟩,
    fun b timeout connectOk intr msgs r h =>
      read_airlab_got_nonempty b timeout connectOk intr msgs r h,
    ?_⟩
  intro b timeout connectOk intr msgs conn
  unfold single_episode
  cases hres : (read_airlab b timeout connectOk intr msgs).1 with
  | interrupted => simp
  | connectFailed => simp [single_reading]
  | noData => simp [single_reading]
  | gotReading r =>
    have hr : r ≠ [] := read_airlab_got_nonempty b timeout connectOk intr msgs r hres
    have hni : r.isEmpty = false := by
      cases r with
      | nil => exact absurd rfl hr
      | cons a t => rfl
    cases hv : validate_reading r <;>
      cases hs : (insert_reading conn).status <;>
        simp [single_reading, hni, hv, hs]

/-- Witness for C10 at concrete inputs. -/
theorem got_data_iff_nonempty_reading_w :
    (epInv (handle_message "airlab" 0 "airlab/co2" "800" initState) ∧
      initState.reading.length ≤
        (handle_message "airlab" 0 "airlab/co2" "800" initState).reading.length) ∧
    ([("co2_ppm", (800 : ℚ))] ≠ ([] : Reading)) ∧
    single_episode "airlab" 30 true none [(0, "airlab/co2", "800")]
      (fun _ => DbOutcome.ok) ≠ some .exitEmpty :=
  ⟨got_data_iff_nonempty_reading.1 "airlab" 0 "airlab/co2" "800" initState epInv_initState,
   got_data_iff_nonempty_reading.2.1 "airlab" 30 true none
     [(0, "airlab/co2", "800")] [("co2_ppm", 800)] (by decide),
   got_data_iff_nonempty_reading.2.2 "airlab" 30 true none
     [(0, "airlab/co2", "800")] (fun _ => DbOutcome.ok)⟩

/-! ### Claim C8 -/

/-- Claim C8: an episode in which no message was ever accepted before
the absolute deadline reports a no-data failure; an episode that
completed via the collection window, or timed out after at least one
accepted message, returns the accumulated reading, which is
non-empty. -/
theorem read_airlab_outcomes :
    ∀ (b : String) (timeout : Nat) (msgs : List TimedMsg),
      ((poll_loop b (timeout : ℚ) 3 none (2 * timeout + 1) 0 0 msgs initState).1.got_data = false →
        (read_airlab b timeout true none msgs).1 = .noData) ∧
      (((poll_loop b (timeout : ℚ) 3 none (2 * timeout + 1) 0 0 msgs initState).2 = .completedWindow ∨
          (poll_loop b (timeout : ℚ) 3 none (2 * timeout + 1) 0 0 msgs initState).1.got_data = true) →
        (read_airlab b timeout true none msgs).1 =
            .gotReading (poll_loop b (timeout : ℚ) 3 none (2 * timeout + 1) 0 0 msgs
              initState).1.reading ∧
          (poll_loop b (timeout : ℚ) 3 none (2 * timeout + 1) 0 0 msgs
            initState).1.reading ≠ []) := by
  intro b timeout msgs
  rcases hpoll : poll_loop b (timeout : ℚ) 3 none (2 * timeout + 1) 0 0 msgs initState
    with ⟨stF, ex⟩
  have hinv : epInv stF := by
    have h0 := epInv_poll b (timeout : ℚ) 3 none (2 * timeout + 1) 0 0 msgs
      initState epInv_initState
    rw [hpoll] at h0
    exact h0
  have hnex : ex ≠ .interrupted := by
    have h0 := poll_ne_interrupted b (timeout : ℚ) 3 (2 * timeout + 1) 0 0 msgs initState
    rw [hpoll] at h0
    exact h0
  have hfs : ex = .completedWindow → stF.first_msg_time.isSome := by
    have h0 := poll_completed_first_isSome b (timeout : ℚ) 3 none (2 * timeout + 1) 0 0
      msgs initState
    rw [hpoll] at h0
    exact h0
  simp only [hpoll]
  constructor
  · intro hgd
    cases ex with
    | interrupted => exact absurd rfl hnex
    | completedWindow => simp [read_airlab, hpoll, hgd]
    | deadlineReached => simp [read_airlab, hpoll, hgd]
  · intro hor
    have hgd : stF.got_data = true := by
      rcases hor with hcw | hgd
      · rw [hinv.2]
        exact hfs hcw
      · exact hgd
    refine ⟨?_, hinv.1.mp hgd⟩
    cases ex with
    | interrupted => exact absurd rfl hnex
    | completedWindow => simp [read_airlab, hpoll, hgd]
    | deadlineReached => simp [read_airlab, hpoll, hgd]

/-- Witness for C8: the spec's example episode (structured scalar
messages at t=0 and t=1, window 3, timeout 30) completes with the
merged two-metric reading. -/
theorem read_airlab_outcomes_w :
    ((read_airlab "airlab" 30 true none
        [(0, "airlab/co2", "800"), (1, "airlab/temp", "21")]).1 =
      .gotReading (poll_loop "airlab" ((30 : Nat) : ℚ) 3 none (2 * 30 + 1) 0 0
        [(0, "airlab/co2", "800"), (1, "airlab/temp", "21")] initState).1.reading ∧
      (poll_loop "airlab" ((30 : Nat) : ℚ) 3 none (2 * 30 + 1) 0 0
        [(0, "airlab/co2", "800"), (1, "airlab/temp", "21")] initState).1.reading ≠ []) ∧
    (poll_loop "airlab" ((30 : Nat) : ℚ) 3 none (2 * 30 + 1) 0 0
        [(0, "airlab/co2", "800"), (1, "airlab/temp", "21")] initState).1.reading =
      [("co2_ppm", 800), ("temperature_c", 21)] :=
  ⟨(read_airlab_outcomes "airlab" 30
      [(0, "airlab/co2", "800"), (1, "airlab/temp", "21")]).2 (Or.inr (by decide)),
   by decide⟩

/-! ### Claim C9 (corrected) -/

/-- Counterexample to C9 as stated: an episode that reached the
collecting phase and was terminated by an asynchronous interrupt
during the first sleep ends without any disconnect: the loop has no
cleanup handler, so the disconnect count is 0, not 1. -/
theorem interrupted_episode_no_disconnect_cex :
    (read_airlab "airlab" 30 true (some 0) []).1 = .interrupted ∧
    (read_airlab "airlab" 30 true (some 0) []).2.count .disconnectA = 0 := by
  decide

/-- Claim C9 (amended): on both normal terminal outcomes (completed
via the collection window or timed out via the absolute deadline) the
controller disconnects from the bus exactly once before the episode
ends; on abnormal termination mid-episode no disconnect is
performed. -/
theorem read_airlab_disconnect_once :
    ∀ (b : String) (timeout : Nat) (intr : Option Nat) (msgs : List TimedMsg),
      ((read_airlab b timeout true intr msgs).1 ≠ .interrupted →
        (read_airlab b timeout true intr msgs).2.count .disconnectA = 1) ∧
      ((read_airlab b timeout true intr msgs).1 = .interrupted →
        (read_airlab b timeout true intr msgs).2.count .disconnectA = 0) := by
  intro b timeout intr msgs
  rcases hpoll : poll_loop b (timeout : ℚ) 3 intr (2 * timeout + 1) 0 0 msgs initState
    with ⟨stF, ex⟩
  cases ex with
  | interrupted =>
    constructor
    · intro hne
      exfalso
      apply hne
      simp [read_airlab, hpoll]
    · intro _
      simp [read_airlab, hpoll]
  | completedWindow =>
    constructor
    · intro _
      cases hgd : stF.got_data <;> simp [read_airlab, hpoll, hgd]
    · intro h
      cases hgd : stF.got_data <;> simp [read_airlab, hpoll, hgd] at h
  | deadlineReached =>
    constructor
    · intro _
      cases hgd : stF.got_data <;> simp [read_airlab, hpoll, hgd]
    · intro h
      cases hgd : stF.got_data <;> simp [read_airlab, hpoll, hgd] at h

/-- Witness for C9 (amended): a deadline-reached episode disconnects
exactly once; an interrupted episode performs no disconnect. -/
theorem read_airlab_disconnect_once_w :
    (read_airlab "airlab" 0 true none []).2.count .disconnectA = 1 ∧
    (read_airlab "airlab" 5 true (some 0) []).2.count .disconnectA = 0 :=
  ⟨(read_airlab_disconnect_once "airlab" 0 none []).1 (by decide),
   (read_airlab_disconnect_once "airlab" 5 (some 0) []).2 (by decide)⟩
